import Mathlib

/-!
# OspfCLib: framing an OSPFv2 payload for a raw link-layer socket

A shallow embedding of `src/OspfCLib/library.c` (`__CalcChecksum`,
`__CreateSocket`, `SendPacket`) and theorems about the bytes it hands to `send`.

Conventions of the embedding.

* Memory is a list of bytes (`Fin 256`).  A C object of integer type is held as
  its value; `wr16`/`wr32` give the bytes it occupies on a host of the given
  byte order and `rd16` is the read of a `uint16_t` through a pointer.
* The host byte order is a parameter (`Endian`): the library is built from
  Linux headers and is compiled for little-endian and big-endian hosts alike.
* `long` is 64 bits wide (LP64).  The accumulator of `__CalcChecksum` is a
  natural number; `sumLoop_sum_lt` shows that it stays below `2 ^ 63` for every
  `nbytes` an `int` can hold, so the signed addition never wraps.
* A read or write outside an object (`memcpy` past the end of an array, a
  pointer moved beyond a string literal) has no defined result: the operation
  returns `none` and the calling function ends in `Outcome.undefined`.
* The operating system and the C library are an oracle (`OS`) that fixes what
  `socket`, `ioctl`, `bind`, `random` and `send` return; the calls the program
  makes are recorded, in order, as a list of `Event`s.
-/

namespace Ospf

/-! ## Bytes and byte order -/

/-- An octet of memory. -/
abbrev Byte := Fin 256

/-- Byte order of the host the library is compiled for. -/
inductive Endian where
  | little
  | big
deriving DecidableEq, Repr

/-- Conversion of an integer value to `unsigned char`: the value modulo 256. -/
def byte (n : Nat) : Byte := ⟨n % 256, Nat.mod_lt _ (by decide)⟩

/-- The `uint16_t` read from two consecutive bytes of memory (`*ptr` for a
`uint16_t *ptr`), `b0` at the lower address. -/
def rd16 (e : Endian) (b0 b1 : Byte) : Nat :=
  match e with
  | .little => b0.val + 256 * b1.val
  | .big => 256 * b0.val + b1.val

/-- The two bytes a `uint16_t` of value `v` occupies in memory, lower address
first. -/
def wr16 (e : Endian) (v : Nat) : List Byte :=
  match e with
  | .little => [byte v, byte (v / 256)]
  | .big => [byte (v / 256), byte v]

/-- The four bytes a `uint32_t` of value `v` occupies in memory, lower address
first. -/
def wr32 (e : Endian) (v : Nat) : List Byte :=
  match e with
  | .little => [byte v, byte (v / 256), byte (v / 65536), byte (v / 16777216)]
  | .big => [byte (v / 16777216), byte (v / 65536), byte (v / 256), byte v]

/-- The libc function `htons`: the `uint16_t` whose memory image is `x` in
network (big-endian) order. -/
def htons (e : Endian) (x : Nat) : Nat :=
  match e with
  | .little => (x % 256) * 256 + (x / 256) % 256
  | .big => x % 65536

/-- The content of a dotted-quad string `a.b.c.d`. -/
structure DottedQuad where
  a : Byte
  b : Byte
  c : Byte
  d : Byte
deriving DecidableEq, Repr

/-- The libc function `inet_addr` on a dotted-quad string: the `in_addr_t`
whose memory image is the address in network byte order. -/
def inet_addr (e : Endian) (q : DottedQuad) : Nat :=
  match e with
  | .little => q.a.val + 256 * q.b.val + 65536 * q.c.val + 16777216 * q.d.val
  | .big => 16777216 * q.a.val + 65536 * q.b.val + 256 * q.c.val + q.d.val

/-- The libc function `memcpy(dst + off, src, n)` on an array `dst`: the array
after the copy, or `none` when the copy would leave `dst` or `src` (a negative
`n` converts to a huge `size_t`). -/
def memcpy (dst : List Byte) (off : Int) (src : List Byte) (n : Int) : Option (List Byte) :=
  if 0 ≤ off ∧ 0 ≤ n ∧ off + n ≤ dst.length ∧ n ≤ src.length then
    some (dst.take off.toNat ++ src.take n.toNat ++ dst.drop (off.toNat + n.toNat))
  else none

/-! ## `__CalcChecksum` (library.c:140-149) -/

/-- The loop `while(nbytes>1) { sum += *ptr++; nbytes -= 2; }`: the pointer
(as the memory that follows it), `nbytes` and `sum` on exit, or `none` when a
word is read past the end of the buffer. -/
def sumLoop (e : Endian) : List Byte → Int → Nat → Option (List Byte × Int × Nat)
  | ptr, nbytes, sum =>
    if nbytes > 1 then
      match ptr with
      | b0 :: b1 :: rest => sumLoop e rest (nbytes - 2) (sum + rd16 e b0 b1)
      | _ => none
    else some (ptr, nbytes, sum)

/-- The statement `if(nbytes == 1) { oddbyte = 0; *((unsigned char *) &oddbyte)
= *(unsigned char *)ptr; sum += oddbyte; }`: the byte is stored at the lower
address of a zeroed `uint16_t`. -/
def addOddByte (e : Endian) (ptr : List Byte) (nbytes : Int) (sum : Nat) : Option Nat :=
  if nbytes = 1 then
    match ptr with
    | b :: _ => some (sum + rd16 e b 0)
    | [] => none
  else some sum

/-- The statements `sum = (sum >> 16)+(sum & 0xffff); sum+=(sum >> 16);
answer = ~sum;` with `answer` a `uint16_t` and `sum` a 64-bit `long`. -/
def foldAnswer (sum : Nat) : Nat :=
  let sum := (sum >>> 16) + (sum &&& 0xffff)
  let sum := sum + (sum >>> 16)
  (2 ^ 64 - 1 - sum) % 2 ^ 16

/-- The function `unsigned short __CalcChecksum(uint16_t *ptr, int nbytes)`. -/
def __CalcChecksum (e : Endian) (ptr : List Byte) (nbytes : Int) : Option Nat :=
  match sumLoop e ptr nbytes 0 with
  | none => none
  | some (ptr, nbytes, sum) =>
    match addOddByte e ptr nbytes sum with
    | none => none
    | some sum => some (foldAnswer sum)

/-! ## The operating system -/

/-- What the operating system and the C library return to the calls the
library makes. -/
structure OS where
  /-- Result of `socket(PF_PACKET, SOCK_RAW, htons(ETH_P_ALL))`. -/
  socket : Int
  /-- Result of `ioctl(sock_fd, SIOCGIFINDEX, &ifr)`. -/
  ioctl : Int
  /-- Result of `bind(sock_fd, &sll, sizeof(sll))`. -/
  bind : Int
  /-- Result of `random()`. -/
  random : Nat
  /-- Result of `send(sock_fd, outBuffer, outBufferSize, 0)`. -/
  send : Int
  /-- Value of `errno` after `send`. -/
  errno : Nat
deriving DecidableEq, Repr

/-- A line written to the standard output or the standard error. -/
inductive Diag where
  /-- The line `ERR: socket creation for device: %s`. -/
  | socketCreation (device : String)
  /-- The line ` ERR: ioctl failed for device: %s`. -/
  | ioctlFailed (device : String)
  /-- The line `ERR: bind failed for device: %s`. -/
  | bindFailed (device : String)
  /-- The call `perror("Socket file descriptor not found.")`. -/
  | fdNotFound
  /-- The line `buffer contents: ` followed by the bytes in hexadecimal. -/
  | bufferContents (bytes : List Byte)
  /-- The text `Length %i, should be %i`. -/
  | lengthShouldBe (writeResult outBufferSize : Int)
  /-- The call `perror` on the given text. -/
  | perror (text : String)
deriving DecidableEq, Repr

/-- A call to the operating system, or a diagnostic. -/
inductive Event where
  | socket
  | ioctl (fd : Int) (ifr_name : String)
  | bind (fd : Int)
  /-- The call `send(fd, buf, len, 0)`; `buf` is the `len` bytes at the pointer. -/
  | send (fd : Int) (buf : List Byte) (len : Int)
  | diag (d : Diag)
deriving DecidableEq, Repr

/-- How a call of a function of the library ends. -/
inductive Outcome where
  /-- The function returns the value to its caller. -/
  | returned (value : Int)
  /-- The function calls `exit(status)`: the process ends, nothing is returned. -/
  | exited (status : Int)
  /-- The function reads or writes outside an object: the run has no defined
  result from there on, and the calls recorded are those made before it. What a
  given build does afterwards (go on, crash, send anything) is not described. -/
  | undefined
deriving DecidableEq, Repr

/-! ## `__CreateSocket` (library.c:116-138) -/

/-- The function `int __CreateSocket(char *device)`: the calls made and the
value returned. -/
def __CreateSocket (os : OS) (device : String) : List Event × Int :=
  let sock_fd := os.socket
  if sock_fd = 0 then ([.socket, .diag (.socketCreation device)], 0)
  else if os.ioctl = -1 then
    ([.socket, .ioctl sock_fd device, .diag (.ioctlFailed device)], 0)
  else if os.bind = -1 then
    ([.socket, .ioctl sock_fd device, .bind sock_fd, .diag (.bindFailed device)], 0)
  else ([.socket, .ioctl sock_fd device, .bind sock_fd], sock_fd)

/-! ## `SendPacket` (library.c:33-114) -/

/-- The type `struct iphdr` of `<netinet/ip.h>`, each field held as its value. -/
structure iphdr where
  version : Nat
  ihl : Nat
  tos : Nat
  tot_len : Nat
  id : Nat
  frag_off : Nat
  ttl : Nat
  protocol : Nat
  check : Nat
  saddr : Nat
  daddr : Nat
deriving DecidableEq, Repr

/-- The 20 bytes a `struct iphdr` occupies in memory.  The header declares the
two 4-bit fields in the order that puts `version` in the high half of the first
byte on either byte order. -/
def iphdr.bytes (e : Endian) (h : iphdr) : List Byte :=
  [byte (16 * (h.version % 16) + h.ihl % 16), byte h.tos] ++ wr16 e h.tot_len ++ wr16 e h.id
    ++ wr16 e h.frag_off ++ [byte h.ttl, byte h.protocol] ++ wr16 e h.check
    ++ wr32 e h.saddr ++ wr32 e h.daddr

/-- The initializer of `ethernetBuffer` (library.c:51-53). -/
def ethernetInit : List Byte :=
  [0x01, 0x00, 0x5e, 0x00, 0x00, 0x05, 0x00, 0x00, 0x00, 0x00, 0x00, 0x00, 0x08, 0x00]

/-- The fields of `ipHeader` after library.c:63-78: the `memset` to zero and
the assignments, before the checksum is substituted. -/
def ipHeaderInit (e : Endian) (os : OS) (sourceIP : Nat) (ospfBufferSize : Int) : iphdr :=
  let ipHeaderSize : Int := 20
  { version := 4
    ihl := (ipHeaderSize >>> 2).toNat
    tos := 0b11000000
    tot_len := htons e ((ipHeaderSize + ospfBufferSize) % 65536).toNat
    id := htons e (os.random % 65535)
    frag_off := 0
    ttl := 1
    protocol := 0x59
    check := 0
    saddr := sourceIP
    daddr := inet_addr e ⟨224, 0, 0, 5⟩ }

/-- The text handed to `perror` at library.c:109: the address of the literal
advanced by `errno` characters; `none` when that leaves the literal. -/
def writeUnsuccessfulText (errno : Nat) : Option String :=
  let literal := "Write unsuccessful. Errno: "
  if errno ≤ literal.length then some ⟨literal.data.drop errno⟩ else none

/-- Lines 50-99 of `SendPacket`: `outBuffer` and `outBufferSize` when the
output buffer has been filled, `none` when a copy leaves its array. -/
def fillOutBuffer (e : Endian) (os : OS) (p_intHWAddr : List Byte) (sourceIP : Nat)
    (p_ospfBuffer : List Byte) (ospfBufferSize : Int) : Option (List Byte × Int) := do
  let ethernetBufferSize : Int := 14
  let ethernetBuffer ← memcpy ethernetInit 6 p_intHWAddr 6
  let ipHeaderSize : Int := 20
  let ipHeader := ipHeaderInit e os sourceIP ospfBufferSize
  let check ← __CalcChecksum e (ipHeader.bytes e) ipHeaderSize
  let ipHeader := { ipHeader with check := check }
  let outBufferSize := ethernetBufferSize + ipHeaderSize + ospfBufferSize
  let outBuffer : List Byte := List.replicate 300 0
  let outBuffer ← memcpy outBuffer 0 ethernetBuffer ethernetBufferSize
  let outBuffer ← memcpy outBuffer ethernetBufferSize (ipHeader.bytes e) ipHeaderSize
  let outBuffer ← memcpy outBuffer (ethernetBufferSize + ipHeaderSize) p_ospfBuffer ospfBufferSize
  if outBufferSize ≤ outBuffer.length then some (outBuffer, outBufferSize) else none

/-- The function `int SendPacket(char *p_intName, unsigned char *p_intHWAddr,
char *p_intIPS, unsigned char *p_ospfBuffer, int ospfBufferSize)`: the calls
made and how the function ends. -/
def SendPacket (e : Endian) (os : OS) (p_intName : String) (p_intHWAddr : List Byte)
    (p_intIPS : DottedQuad) (p_ospfBuffer : List Byte) (ospfBufferSize : Int) :
    List Event × Outcome :=
  let sourceIP := inet_addr e p_intIPS
  let (calls, sock_fd) := __CreateSocket os p_intName
  if sock_fd = 0 then (calls ++ [.diag .fdNotFound], .exited 1)
  else
    match fillOutBuffer e os p_intHWAddr sourceIP p_ospfBuffer ospfBufferSize with
    | none => (calls, .undefined)
    | some (outBuffer, outBufferSize) =>
      let sent := outBuffer.take outBufferSize.toNat
      let writeResult := os.send
      let calls := calls ++ [.diag (.bufferContents sent), .send sock_fd sent outBufferSize,
        .diag (.lengthShouldBe writeResult outBufferSize)]
      if writeResult = -1 then
        match writeUnsuccessfulText os.errno with
        | none => (calls, .undefined)
        | some text => (calls ++ [.diag (.perror text)], .returned 0)
      else (calls, .returned 1)

/-- The frames handed to `send` in a list of calls, with the length passed. -/
def sentFrames : List Event → List (List Byte × Int)
  | [] => []
  | .send _ buf len :: rest => (buf, len) :: sentFrames rest
  | _ :: rest => sentFrames rest

/-! ## Definitions used to state the properties -/

/-- Sum of the 16-bit words of a buffer as `__CalcChecksum` reads them: each
pair of bytes through `rd16`, a trailing single byte as the word it forms with
a zero byte after it. -/
def wordSum (e : Endian) : List Byte → Nat
  | b0 :: b1 :: rest => rd16 e b0 b1 + wordSum e rest
  | [b] => rd16 e b 0
  | [] => 0

/-- The low 16 bits of `sum` after the two folding statements of
`__CalcChecksum`. -/
def fold2 (s : Nat) : Nat :=
  ((s / 65536 + s % 65536) + (s / 65536 + s % 65536) / 65536) % 65536

/-- From the specification (4.1): fold all carries into 16 bits by adding the
high half to the low half until the high half is zero. -/
def foldCarries (s : Nat) : Nat :=
  if s / 65536 = 0 then s else foldCarries (s / 65536 + s % 65536)
decreasing_by omega

/-- From the specification (4.1): the internet checksum of RFC 1071, the
bitwise complement, truncated to 16 bits, of the fully folded sum of the 16-bit
words of the buffer.  The words are read in the byte order `e`. -/
def rfc1071Checksum (e : Endian) (B : List Byte) : Nat :=
  65535 - foldCarries (wordSum e B)

/-- The buffer `B` with the two bytes at offset `k` replaced by `field`. -/
def setField (B : List Byte) (k : Nat) (field : List Byte) : List Byte :=
  B.take k ++ field ++ B.drop (k + 2)

/-- The known vector of the specification (8.2): an IPv4 header with the
checksum field zeroed. -/
def rfcHeader : List Byte :=
  [0x45, 0x00, 0x00, 0x3C, 0x1C, 0x46, 0x40, 0x00, 0x40, 0x06, 0x00, 0x00,
   0xAC, 0x10, 0x0A, 0x63, 0xAC, 0x10, 0x0A, 0x0C]

/-- A buffer of 131077 bytes: 65538 words `FF FF` and a trailing byte `01`. -/
def longBuffer : List Byte := List.replicate (2 * 65538) 0xFF ++ [0x01]

/-- The Ethernet header of the on-wire layout (specification, 6) for the
hardware address `hw`. -/
def ethernetBytes (hw : List Byte) : List Byte :=
  [0x01, 0x00, 0x5E, 0x00, 0x00, 0x05] ++ hw.take 6 ++ [0x08, 0x00]

/-- The IPv4 header of the on-wire layout (specification, 6): total length
`tot`, identification `id`, checksum bytes `c0 c1`, source address `src`. -/
def ipv4Bytes (tot id : Nat) (c0 c1 : Byte) (src : DottedQuad) : List Byte :=
  [0x45, 0xC0, byte (tot / 256), byte tot, byte (id / 256), byte id, 0x00, 0x00, 0x01, 0x59,
   c0, c1, src.a, src.b, src.c, src.d, 0xE0, 0x00, 0x00, 0x05]

/-- An operating system on which the socket is created and bound as descriptor
3, `random` returns `r` and `send` returns `w`. -/
def osOk (r : Nat) (w : Int) : OS :=
  { socket := 3, ioctl := 0, bind := 0, random := r, send := w, errno := 0 }

/-- The hardware address `02:11:22:33:44:55`. -/
def hwExample : List Byte := [0x02, 0x11, 0x22, 0x33, 0x44, 0x55]

/-- The buffer with the two bytes of every 16-bit word exchanged; a trailing
single byte is kept. -/
def swapWords : List Byte → List Byte
  | b0 :: b1 :: rest => b1 :: b0 :: swapWords rest
  | [b] => [b]
  | [] => []

/-- An operating system on which the socket is created as descriptor 3 and the
interface-index lookup fails (`ioctl` returns -1, `errno` is `ENODEV`). -/
def osNoInterface : OS :=
  { socket := 3, ioctl := -1, bind := 0, random := 0, send := 0, errno := 19 }

/-- An operating system that refuses the raw socket: `socket` returns -1 and
the calls on that descriptor fail with `EBADF`. -/
def osRefused : OS :=
  { socket := -1, ioctl := -1, bind := -1, random := 0, send := -1, errno := 9 }

/-- An operating system on which `socket` succeeds with descriptor 0. -/
def osDescriptor0 : OS :=
  { socket := 0, ioctl := 0, bind := 0, random := 0, send := 36, errno := 0 }

/-- The frame of the layout round-trip of the specification (8.3) with
identification `12 34`: 36 bytes. -/
def frameExample : List Byte :=
  [0x01, 0x00, 0x5E, 0x00, 0x00, 0x05, 0x02, 0x11, 0x22, 0x33, 0x44, 0x55, 0x08, 0x00,
   0x45, 0xC0, 0x00, 0x16, 0x12, 0x34, 0x00, 0x00, 0x01, 0x59, 0xBC, 0x95,
   0x0A, 0x00, 0x00, 0x01, 0xE0, 0x00, 0x00, 0x05, 0xAA, 0xBB]

/-! ## The checksum -/

theorem compl16 (x : Nat) (h : x ≤ 18446744073709551615) :
    (18446744073709551615 - x) % 65536 = 65535 - x % 65536 := by
  omega

theorem foldAnswer_eq (s : Nat) (h : s < 9223372036854775808) :
    foldAnswer s = 65535 - fold2 s := by
  have h1 : (0xffff : Nat) = 2 ^ 16 - 1 := by norm_num
  simp only [foldAnswer, fold2, Nat.shiftRight_eq_div_pow, h1, Nat.and_pow_two_sub_one_eq_mod]
  norm_num
  rw [compl16 _ (by omega)]

theorem fold2_split (hi lo : Nat) (hlo : lo < 65536) :
    fold2 (65536 * hi + lo) = ((hi + lo) + (hi + lo) / 65536) % 65536 := by
  have h1 : (65536 * hi + lo) / 65536 = hi := by omega
  have h2 : (65536 * hi + lo) % 65536 = lo := by omega
  simp only [fold2, h1, h2]

theorem fold2_lt (s : Nat) : fold2 s < 65536 := by
  unfold fold2; omega

theorem fold2_verify (s : Nat) (h : s ≤ 4295032830) :
    fold2 (s + (65535 - fold2 s)) = 65535 := by
  obtain ⟨hi, lo, hlo, rfl⟩ : ∃ hi lo, lo < 65536 ∧ s = 65536 * hi + lo :=
    ⟨s / 65536, s % 65536, Nat.mod_lt _ (by decide), by omega⟩
  rw [fold2_split hi lo hlo]
  by_cases h1 : hi = 65536
  · have h2 : 65536 * hi + lo + (65535 - (hi + lo + (hi + lo) / 65536) % 65536)
        = 65536 * 65536 + 65534 := by omega
    rw [h2, fold2_split _ _ (by decide)]
  · by_cases h3 : hi + lo < 65536
    · have h2 : 65536 * hi + lo + (65535 - (hi + lo + (hi + lo) / 65536) % 65536)
          = 65536 * hi + (65535 - hi) := by omega
      rw [h2, fold2_split _ _ (by omega)]
      omega
    · by_cases h4 : hi = 65535
      · have h2 : 65536 * hi + lo + (65535 - (hi + lo + (hi + lo) / 65536) % 65536)
            = 65536 * 65535 + 65535 := by omega
        rw [h2, fold2_split _ _ (by decide)]
      · have h2 : 65536 * hi + lo + (65535 - (hi + lo + (hi + lo) / 65536) % 65536)
            = 65536 * (hi + 1) + (65534 - hi) := by omega
        rw [h2, fold2_split _ _ (by omega)]
        omega

theorem foldAnswer_verify (s : Nat) (h : s ≤ 4295032830) :
    foldAnswer (s + foldAnswer s) = 0 := by
  have h0 := fold2_lt s
  rw [foldAnswer_eq s (by omega), foldAnswer_eq _ (by omega), fold2_verify s h]

theorem rd16_lt (e : Endian) (b0 b1 : Byte) : rd16 e b0 b1 < 65536 := by
  cases e <;> simp only [rd16] <;> omega

theorem sumLoop_addOddByte (e : Endian) (B : List Byte) :
    ∀ s : Nat, (sumLoop e B B.length s).bind (fun r => addOddByte e r.1 r.2.1 r.2.2)
      = some (s + wordSum e B) := by
  induction B using wordSum.induct e with
  | case1 b0 b1 rest ih =>
    intro s
    have h1 : ((b0 :: b1 :: rest).length : Int) > 1 := by
      simp only [List.length_cons, Nat.cast_add, Nat.cast_one]; omega
    have h2 : ((b0 :: b1 :: rest).length : Int) - 2 = (rest.length : Int) := by
      simp only [List.length_cons, Nat.cast_add, Nat.cast_one]; omega
    rw [sumLoop, if_pos h1, h2, ih, wordSum, Nat.add_assoc]
  | case2 b =>
    intro s
    simp [sumLoop, addOddByte, wordSum]
  | case3 =>
    intro s
    simp [sumLoop, addOddByte, wordSum]

/-- On a buffer of exactly `nbytes` bytes `__CalcChecksum` returns the folded,
complemented word sum. -/
theorem calcChecksum_length (e : Endian) (B : List Byte) :
    __CalcChecksum e B B.length = some (foldAnswer (wordSum e B)) := by
  have h := sumLoop_addOddByte e B 0
  unfold __CalcChecksum
  cases hs : sumLoop e B B.length 0 with
  | none => rw [hs] at h; simp at h
  | some r =>
    obtain ⟨p, n, s⟩ := r
    rw [hs] at h
    simp only [Option.bind] at h
    simp only [h, Nat.zero_add]

theorem wordSum_append (e : Endian) (pre rest : List Byte) (h : pre.length % 2 = 0) :
    wordSum e (pre ++ rest) = wordSum e pre + wordSum e rest := by
  induction pre using wordSum.induct e with
  | case1 b0 b1 tl ih =>
    have h2 : tl.length % 2 = 0 := by simp at h; omega
    rw [List.cons_append, List.cons_append, wordSum, wordSum, ih h2, Nat.add_assoc]
  | case2 b => simp at h
  | case3 => simp [wordSum]

theorem wordSum_le (e : Endian) (B : List Byte) :
    wordSum e B ≤ 65535 * ((B.length + 1) / 2) := by
  induction B using wordSum.induct e with
  | case1 b0 b1 tl ih =>
    have := rd16_lt e b0 b1
    simp only [wordSum, List.length_cons]
    omega
  | case2 b =>
    have := rd16_lt e b 0
    simp only [wordSum, List.length_cons, List.length_nil]
    omega
  | case3 => simp [wordSum]

theorem wordSum_wr16 (e : Endian) (c : Nat) (h : c < 65536) : wordSum e (wr16 e c) = c := by
  cases e <;> simp only [wr16, wordSum, rd16, byte] <;> omega

theorem foldAnswer_lt (s : Nat) : foldAnswer s < 65536 := by
  unfold foldAnswer
  exact Nat.mod_lt _ (by decide)

theorem field_verifies (e : Endian) (B : List Byte) (k : Nat) (hk : k % 2 = 0)
    (hkm : k + 2 ≤ B.length) (hm : B.length ≤ 131078) :
    ∃ c, __CalcChecksum e (setField B k [0, 0]) B.length = some c ∧
      __CalcChecksum e (setField B k (wr16 e c)) B.length = some 0 := by
  have hlen : ∀ f : List Byte, f.length = 2 → (setField B k f).length = B.length := by
    intro f hf
    simp only [setField, List.length_append, List.length_take, List.length_drop, hf]
    omega
  have hsum : ∀ f : List Byte, f.length = 2 →
      wordSum e (setField B k f) = wordSum e (B.take k) + (wordSum e f + wordSum e (B.drop (k + 2))) := by
    intro f hf
    have h1 : (B.take k).length % 2 = 0 := by rw [List.length_take]; omega
    simp only [setField, List.append_assoc]
    rw [wordSum_append e _ _ h1, wordSum_append e f _ (by rw [hf])]
  have hw : ∀ c, (wr16 e c).length = 2 := by intro c; cases e <;> rfl
  refine ⟨foldAnswer (wordSum e (setField B k [0, 0])), ?_, ?_⟩
  · have := calcChecksum_length e (setField B k [0, 0])
    rwa [hlen [0, 0] rfl] at this
  · have h2 := calcChecksum_length e (setField B k (wr16 e (foldAnswer (wordSum e (setField B k [0, 0])))))
    rw [hlen _ (hw _)] at h2
    rw [h2, hsum _ (hw _), wordSum_wr16 e _ (foldAnswer_lt _)]
    have h0 : wordSum e ([0, 0] : List Byte) = 0 := by cases e <;> rfl
    have hb1 := wordSum_le e (B.take k)
    have hb2 := wordSum_le e (B.drop (k + 2))
    rw [List.length_take] at hb1
    rw [List.length_drop] at hb2
    have hz := hsum [0, 0] rfl
    rw [h0] at hz
    generalize wordSum e (setField B k [0, 0]) = S at hz ⊢
    have hbound : S ≤ 4295032830 := by omega
    have hS2 : wordSum e (B.take k) + (foldAnswer S + wordSum e (B.drop (k + 2)))
        = S + foldAnswer S := by omega
    rw [hS2, foldAnswer_verify S hbound]


/-! ## The frame `SendPacket` builds -/

theorem swab_bytes (a b : Nat) (ha : a < 256) (hb : b < 256) :
    (a * 256 + b) / 256 % 256 = a ∧ (a * 256 + b) % 256 = b := by
  omega

theorem wr16_htons (e : Endian) (x : Nat) : wr16 e (htons e x) = [byte (x / 256), byte x] := by
  cases e
  · have h := swab_bytes (x % 256) (x / 256 % 256) (Nat.mod_lt _ (by decide))
      (Nat.mod_lt _ (by decide))
    simp only [wr16, htons, byte, List.cons.injEq, Fin.mk.injEq, and_true, h.1, h.2]
  · simp only [wr16, htons, byte, List.cons.injEq, Fin.mk.injEq, and_true]
    constructor <;> omega

theorem wr32_inet_addr (e : Endian) (q : DottedQuad) :
    wr32 e (inet_addr e q) = [q.a, q.b, q.c, q.d] := by
  obtain ⟨a, b, c, d⟩ := q
  cases e <;>
    simp only [wr32, inet_addr, byte, List.cons.injEq, Fin.ext_iff, and_true] <;>
    refine ⟨?_, ?_, ?_, ?_⟩ <;> omega

theorem wr16_eq (e : Endian) (v : Nat) : ∃ c0 c1, wr16 e v = [c0, c1] := by
  cases e <;> exact ⟨_, _, rfl⟩

theorem ipHeader_bytes (e : Endian) (os : OS) (src : DottedQuad) (n : Nat) (c : Nat)
    (c0 c1 : Byte) (hc : wr16 e c = [c0, c1]) :
    iphdr.bytes e { ipHeaderInit e os (inet_addr e src) n with check := c }
      = ipv4Bytes (20 + n) (os.random % 65535) c0 c1 src := by
  have h1 : ((20 + (n : Int)) % 65536).toNat = (20 + n) % 65536 := by omega
  have h2 : byte ((20 + n) % 65536 / 256) = byte ((20 + n) / 256) := by
    simp only [byte, Fin.mk.injEq]; omega
  have h3 : byte ((20 + n) % 65536) = byte (20 + n) := by
    simp only [byte, Fin.mk.injEq]; omega
  have h4 : wr16 e 0 = [0, 0] := by cases e <;> rfl
  simp only [iphdr.bytes, ipHeaderInit, wr16_htons, wr32_inet_addr, hc, h1, h2, h3, h4, ipv4Bytes,
    List.cons_append, List.nil_append]
  rfl


theorem memcpy_append (pre fill : List Byte) (off : Int) (src : List Byte) (n : Int) (k : Nat)
    (hoff : off = pre.length) (hn : n = k) (hsrc : k ≤ src.length) (hfill : k ≤ fill.length) :
    memcpy (pre ++ fill) off src n = some (pre ++ src.take k ++ fill.drop k) := by
  subst hoff hn
  have hc : (0 : Int) ≤ pre.length ∧ (0 : Int) ≤ k ∧
      (pre.length : Int) + k ≤ ((pre ++ fill).length : Nat) ∧ (k : Int) ≤ (src.length : Nat) := by
    simp only [List.length_append, Nat.cast_add]
    omega
  simp only [memcpy, if_pos hc, Int.toNat_ofNat, List.take_left, List.drop_append]

theorem memcpy_length (dst : List Byte) (off : Int) (src : List Byte) (n : Int) (r : List Byte)
    (h : memcpy dst off src n = some r) : r.length = dst.length := by
  unfold memcpy at h
  split at h
  · rename_i hc
    obtain ⟨h0, h1, h2, h3⟩ := hc
    simp only [Option.some.injEq] at h
    subst h
    simp only [List.length_append, List.length_take, List.length_drop]
    omega
  · simp at h

theorem memcpy_none (dst : List Byte) (off : Int) (src : List Byte) (n : Int)
    (h : (dst.length : Int) < off + n) : memcpy dst off src n = none := by
  unfold memcpy
  rw [if_neg]
  omega


theorem ethernetBytes_length (hw : List Byte) (h : 6 ≤ hw.length) :
    (ethernetBytes hw).length = 14 := by
  simp only [ethernetBytes, List.length_append, List.length_take, List.length_cons,
    List.length_nil]
  omega

theorem memcpy_ethernet (hw : List Byte) (h : 6 ≤ hw.length) :
    memcpy ethernetInit 6 hw 6 = some (ethernetBytes hw) := by
  have h1 := memcpy_append [0x01, 0x00, 0x5e, 0x00, 0x00, 0x05]
    [0x00, 0x00, 0x00, 0x00, 0x00, 0x00, 0x08, 0x00] 6 hw 6 6 rfl rfl h (by decide)
  exact h1

theorem fillOutBuffer_eq (e : Endian) (os : OS) (hw : List Byte) (src : DottedQuad)
    (buf : List Byte) (n : Nat) (hhw : 6 ≤ hw.length) (hn : n ≤ 266) (hbuf : n ≤ buf.length) :
    ∃ c c0 c1,
      __CalcChecksum e (ipv4Bytes (20 + n) (os.random % 65535) 0 0 src) 20 = some c ∧
      wr16 e c = [c0, c1] ∧
      __CalcChecksum e (ipv4Bytes (20 + n) (os.random % 65535) c0 c1 src) 20 = some 0 ∧
      fillOutBuffer e os hw (inet_addr e src) buf n
        = some (ethernetBytes hw ++ ipv4Bytes (20 + n) (os.random % 65535) c0 c1 src
            ++ buf.take n ++ List.replicate (266 - n) 0, 34 + (n : Int)) := by
  have hz : wr16 e 0 = [0, 0] := by cases e <;> rfl
  have hb0 : iphdr.bytes e (ipHeaderInit e os (inet_addr e src) n)
      = ipv4Bytes (20 + n) (os.random % 65535) 0 0 src :=
    ipHeader_bytes e os src n 0 0 0 hz
  have hlen : ∀ a b : Byte, (ipv4Bytes (20 + n) (os.random % 65535) a b src).length = 20 :=
    fun _ _ => rfl
  obtain ⟨c, hc1, hc2⟩ := field_verifies e
    (ipv4Bytes (20 + n) (os.random % 65535) 0 0 src) 10 (by decide)
    (by rw [hlen]; decide) (by rw [hlen]; decide)
  obtain ⟨c0, c1, hw16⟩ := wr16_eq e c
  rw [hw16] at hc2
  replace hc1 : __CalcChecksum e (ipv4Bytes (20 + n) (os.random % 65535) 0 0 src) 20 = some c := hc1
  replace hc2 : __CalcChecksum e (ipv4Bytes (20 + n) (os.random % 65535) c0 c1 src) 20 = some 0 :=
    hc2
  refine ⟨c, c0, c1, hc1, hw16, hc2, ?_⟩
  have hb1 := ipHeader_bytes e os src n c c0 c1 hw16
  dsimp only at hb1
  have hm1 := memcpy_append [] (List.replicate 300 (0 : Byte)) 0 (ethernetBytes hw) 14 14 rfl rfl
    (by rw [ethernetBytes_length hw hhw]) (by rw [List.length_replicate]; omega)
  have hm2 := memcpy_append (ethernetBytes hw) (List.replicate 286 (0 : Byte)) 14
    (ipv4Bytes (20 + n) (os.random % 65535) c0 c1 src) 20 20
    (by rw [ethernetBytes_length hw hhw]; rfl) rfl (by rw [hlen])
    (by rw [List.length_replicate]; omega)
  have hm3 := memcpy_append
    (ethernetBytes hw ++ ipv4Bytes (20 + n) (os.random % 65535) c0 c1 src)
    (List.replicate 266 (0 : Byte)) (14 + 20) buf n n
    (by rw [List.length_append, ethernetBytes_length hw hhw, hlen]; rfl) rfl hbuf
    (by rw [List.length_replicate]; omega)
  simp only [List.nil_append, List.take_of_length_le (le_of_eq (ethernetBytes_length hw hhw)),
    List.take_of_length_le (le_of_eq (hlen c0 c1)), List.drop_replicate] at hm1 hm2 hm3
  have h300 : (ethernetBytes hw ++ ipv4Bytes (20 + n) (os.random % 65535) c0 c1 src
      ++ buf.take n ++ List.replicate (266 - n) (0 : Byte)).length = 300 := by
    simp only [List.length_append, ethernetBytes_length hw hhw, hlen, List.length_take,
      List.length_replicate]
    omega
  have hsz : (14 : Int) + 20 + (n : Int) ≤ (300 : Nat) := by omega
  simp only [fillOutBuffer, memcpy_ethernet hw hhw, hb0, hc1, hb1, Option.bind_eq_bind,
    Option.some_bind, hm1, hm2, hm3, h300, if_pos hsz]
  norm_num


theorem sentFrames_append (xs ys : List Event) :
    sentFrames (xs ++ ys) = sentFrames xs ++ sentFrames ys := by
  induction xs with
  | nil => rfl
  | cons x xs ih => cases x <;> simp [sentFrames, ih]

theorem createSocket_sentFrames (os : OS) (device : String) :
    sentFrames (__CreateSocket os device).1 = [] := by
  unfold __CreateSocket
  dsimp only
  split_ifs <;> rfl

theorem writeUnsuccessfulText_some (errno : Nat) (h : errno ≤ 27) :
    writeUnsuccessfulText errno = some ⟨"Write unsuccessful. Errno: ".data.drop errno⟩ := by
  have hl : "Write unsuccessful. Errno: ".length = 27 := by decide
  simp only [writeUnsuccessfulText, hl, if_pos h]

theorem writeUnsuccessfulText_none (errno : Nat) (h : 27 < errno) :
    writeUnsuccessfulText errno = none := by
  have hl : "Write unsuccessful. Errno: ".length = 27 := by decide
  simp only [writeUnsuccessfulText, hl, if_neg (Nat.not_le.mpr h)]

/-- The calls `SendPacket` makes once the output buffer has been filled. -/
theorem SendPacket_calls (e : Endian) (os : OS) (name : String) (hw : List Byte)
    (src : DottedQuad) (buf : List Byte) (n : Int) (outBuffer : List Byte) (outBufferSize : Int)
    (hsock : (__CreateSocket os name).2 ≠ 0)
    (hfill : fillOutBuffer e os hw (inet_addr e src) buf n = some (outBuffer, outBufferSize)) :
    sentFrames (SendPacket e os name hw src buf n).1
        = [(outBuffer.take outBufferSize.toNat, outBufferSize)] ∧
      (SendPacket e os name hw src buf n).2
        = if os.send = -1 then (if os.errno ≤ 27 then .returned 0 else .undefined)
          else .returned 1 := by
  have hcs := createSocket_sentFrames os name
  simp only [SendPacket, if_neg hsock, hfill]
  by_cases hs : os.send = -1
  · by_cases he : os.errno ≤ 27
    · simp [hs, he, writeUnsuccessfulText_some _ he, sentFrames_append, sentFrames, hcs]
    · simp [hs, he, writeUnsuccessfulText_none _ (Nat.lt_of_not_le he), sentFrames_append,
        sentFrames, hcs]
  · simp [hs, sentFrames_append, sentFrames, hcs]


theorem fillOutBuffer_overflow (e : Endian) (os : OS) (hw : List Byte) (sourceIP : Nat)
    (buf : List Byte) (n : Int) (hn : 266 < n) :
    fillOutBuffer e os hw sourceIP buf n = none := by
  unfold fillOutBuffer
  simp only [Option.bind_eq_bind]
  cases memcpy ethernetInit 6 hw 6 with
  | none => rfl
  | some eb =>
    simp only [Option.some_bind]
    cases __CalcChecksum e (iphdr.bytes e (ipHeaderInit e os sourceIP n)) 20 with
    | none => rfl
    | some c =>
      simp only [Option.some_bind]
      cases h1 : memcpy (List.replicate 300 0) 0 eb 14 with
      | none => rfl
      | some ob1 =>
        simp only [Option.some_bind]
        have hl1 := memcpy_length _ _ _ _ _ h1
        cases h2 : memcpy ob1 14 (iphdr.bytes e
            { ipHeaderInit e os sourceIP n with check := c }) 20 with
        | none => rfl
        | some ob2 =>
          have hl2 := memcpy_length _ _ _ _ _ h2
          simp only [Option.some_bind]
          rw [memcpy_none ob2 (14 + 20) buf n
            (by rw [hl2, hl1, List.length_replicate]; omega)]
          rfl

/-- A payload of more than 266 bytes makes `memcpy` write past the end of the
300-byte `outBuffer`: the call has no defined result, and no call is recorded
after the overrun. -/
theorem SendPacket_overflow (e : Endian) (os : OS) (name : String) (hw : List Byte)
    (src : DottedQuad) (buf : List Byte) (n : Int) (hsock : (__CreateSocket os name).2 ≠ 0)
    (hn : 266 < n) :
    SendPacket e os name hw src buf n = ((__CreateSocket os name).1, .undefined) := by
  simp only [SendPacket, if_neg hsock, fillOutBuffer_overflow e os hw _ buf n hn]

theorem wordSum_replicate (e : Endian) (k : Nat) (rest : List Byte) :
    wordSum e (List.replicate (2 * k) 0xFF ++ rest) = 65535 * k + wordSum e rest := by
  induction k with
  | zero => simp
  | succ k ih =>
    have h : List.replicate (2 * (k + 1)) (0xFF : Byte)
        = 0xFF :: 0xFF :: List.replicate (2 * k) 0xFF := by
      rw [Nat.mul_succ]; rfl
    have h2 : rd16 e 0xFF 0xFF = 65535 := by cases e <;> rfl
    rw [h, List.cons_append, List.cons_append, wordSum, ih, h2]
    omega






theorem sumLoop_sum_le (e : Endian) (ptr : List Byte) :
    ∀ (nbytes : Int) (s : Nat) (r : List Byte × Int × Nat),
      sumLoop e ptr nbytes s = some r → r.2.2 ≤ s + 65535 * (nbytes / 2).toNat := by
  induction ptr using wordSum.induct e with
  | case1 b0 b1 rest ih =>
    intro nbytes s r h
    rw [sumLoop] at h
    split at h
    · have h1 := ih _ _ _ h
      have h2 := rd16_lt e b0 b1
      omega
    · simp only [Option.some.injEq] at h
      subst h
      dsimp only
      omega
  | case2 b =>
    intro nbytes s r h
    unfold sumLoop at h
    split at h
    · simp at h
    · simp only [Option.some.injEq] at h
      subst h
      dsimp only
      omega
  | case3 =>
    intro nbytes s r h
    unfold sumLoop at h
    split at h
    · simp at h
    · simp only [Option.some.injEq] at h
      subst h
      dsimp only
      omega

/-- The accumulator of `__CalcChecksum` fits a 64-bit `long` with room for the
odd byte, for every `nbytes` an `int` can hold. -/
theorem sumLoop_sum_lt (e : Endian) (ptr : List Byte) (nbytes : Int) (r : List Byte × Int × Nat)
    (h : sumLoop e ptr nbytes 0 = some r) (hn : nbytes < 2147483648) :
    r.2.2 + 65535 < 9223372036854775808 := by
  have h1 := sumLoop_sum_le e ptr nbytes 0 r h
  omega

theorem foldCarries_small (s : Nat) (h : s < 65536) : foldCarries s = s := by
  rw [foldCarries, if_pos (by omega)]

theorem foldCarries_step (s : Nat) (h : 65536 ≤ s) :
    foldCarries s = foldCarries (s / 65536 + s % 65536) := by
  conv_lhs => rw [foldCarries]
  rw [if_neg (by omega)]

/-- Two folding steps reach the fully folded sum as long as the sum is at
most `0x10000FFFE`. -/
theorem fold2_eq_foldCarries (s : Nat) (h : s ≤ 4295032830) : fold2 s = foldCarries s := by
  obtain ⟨hi, lo, hlo, rfl⟩ : ∃ hi lo, lo < 65536 ∧ s = 65536 * hi + lo :=
    ⟨s / 65536, s % 65536, Nat.mod_lt _ (by decide), by omega⟩
  rw [fold2_split hi lo hlo]
  by_cases h0 : hi = 0
  · subst h0
    rw [foldCarries_small _ (by omega)]
    omega
  · have h1 : (65536 * hi + lo) / 65536 = hi := by omega
    have h2 : (65536 * hi + lo) % 65536 = lo := by omega
    rw [foldCarries_step _ (by omega), h1, h2]
    by_cases h3 : hi + lo < 65536
    · rw [foldCarries_small _ h3]
      omega
    · rw [foldCarries_step _ (by omega), foldCarries_small _ (by omega)]
      omega

theorem longBuffer_length : longBuffer.length = 131077 := by
  unfold longBuffer
  rw [List.length_append, List.length_replicate, List.length_singleton]

theorem wordSum_longBuffer : wordSum .little longBuffer = 4295032831 := by
  rw [longBuffer, wordSum_replicate]
  rfl


/-! ## Payloads that fit the output buffer -/

/-- For a payload of at most 266 bytes, on a socket that was created and bound,
`SendPacket` calls `send` once, with the length `34 + n` and the frame made of
the Ethernet header, the IPv4 header of the on-wire layout and the payload; the
checksum bytes are those of `__CalcChecksum` over the header with a zero
checksum field, and `__CalcChecksum` over the emitted header is 0. -/
theorem SendPacket_frame (e : Endian) (os : OS) (name : String) (hw : List Byte)
    (src : DottedQuad) (buf : List Byte) (n : Nat) (hsock : (__CreateSocket os name).2 ≠ 0)
    (hhw : 6 ≤ hw.length) (hn : n ≤ 266) (hbuf : n ≤ buf.length) :
    ∃ c c0 c1,
      __CalcChecksum e (ipv4Bytes (20 + n) (os.random % 65535) 0 0 src) 20 = some c ∧
      wr16 e c = [c0, c1] ∧
      __CalcChecksum e (ipv4Bytes (20 + n) (os.random % 65535) c0 c1 src) 20 = some 0 ∧
      sentFrames (SendPacket e os name hw src buf n).1
        = [(ethernetBytes hw ++ ipv4Bytes (20 + n) (os.random % 65535) c0 c1 src ++ buf.take n,
            34 + (n : Int))] := by
  obtain ⟨c, c0, c1, h1, h2, h3, h4⟩ := fillOutBuffer_eq e os hw src buf n hhw hn hbuf
  refine ⟨c, c0, c1, h1, h2, h3, ?_⟩
  rw [(SendPacket_calls e os name hw src buf n _ _ hsock h4).1]
  have hl : (ethernetBytes hw ++ ipv4Bytes (20 + n) (os.random % 65535) c0 c1 src
      ++ buf.take n).length = (34 + (n : Int)).toNat := by
    have h5 : (ipv4Bytes (20 + n) (os.random % 65535) c0 c1 src).length = 20 := rfl
    rw [List.length_append, List.length_append, ethernetBytes_length hw hhw, h5,
      List.length_take]
    omega
  rw [List.take_left' hl]

/-- For a payload of at most 266 bytes, on a socket that was created and bound,
`SendPacket` ends as the result of `send` decides. -/
theorem SendPacket_outcome (e : Endian) (os : OS) (name : String) (hw : List Byte)
    (src : DottedQuad) (buf : List Byte) (n : Nat) (hsock : (__CreateSocket os name).2 ≠ 0)
    (hhw : 6 ≤ hw.length) (hn : n ≤ 266) (hbuf : n ≤ buf.length) :
    (SendPacket e os name hw src buf n).2
      = if os.send = -1 then (if os.errno ≤ 27 then .returned 0 else .undefined)
        else .returned 1 := by
  obtain ⟨c, c0, c1, _, _, _, h4⟩ := fillOutBuffer_eq e os hw src buf n hhw hn hbuf
  exact (SendPacket_calls e os name hw src buf n _ _ hsock h4).2

/-! ## The claims -/

/-- C1, at a payload of 1024 bytes: the copy of the payload to `outBuffer + 34`
runs 758 bytes past the 300-byte array, so `SendPacket` has no defined result;
no frame, and so no header that validates, is handed to `send`. -/
theorem header_checksum_payload_1024 :
    (SendPacket .little (osOk 7 1058) "eth0" hwExample ⟨10, 0, 0, 1⟩
        (List.replicate 1024 0x01) 1024).2 = .undefined ∧
      sentFrames (SendPacket .little (osOk 7 1058) "eth0" hwExample ⟨10, 0, 0, 1⟩
        (List.replicate 1024 0x01) 1024).1 = [] := by
  rw [SendPacket_overflow .little (osOk 7 1058) "eth0" hwExample ⟨10, 0, 0, 1⟩ _ 1024
    (by decide) (by decide)]
  exact ⟨rfl, createSocket_sentFrames _ _⟩

/-- C2, as stated, fails in two ways on a little-endian host.  With the
checksum field at the odd offset 1 of `00 00 00 01` the checksum of the zeroed
buffer is `0xFEFF` and, once stored, the buffer sums to `0xFF00`, not 0.  With
the field at offset 0 of a buffer of 131079 bytes the checksum `0xFFFF` of the
zeroed buffer, once stored, gives `0xFFFF` again, not 0. -/
theorem checksum_field_counterexample :
    (__CalcChecksum .little (setField [0x00, 0x00, 0x00, 0x01] 1 [0, 0]) 4 = some 0xFEFF ∧
      __CalcChecksum .little (setField [0x00, 0x00, 0x00, 0x01] 1 (wr16 .little 0xFEFF)) 4
        = some 0xFF00) ∧
    (__CalcChecksum .little (setField (0 :: 0 :: longBuffer) 0 [0, 0]) 131079 = some 0xFFFF ∧
      __CalcChecksum .little (setField (0 :: 0 :: longBuffer) 0 (wr16 .little 0xFFFF)) 131079
        = some 0xFFFF) := by
  refine ⟨⟨by decide, by decide⟩, ?_, ?_⟩
  · have h := calcChecksum_length .little (0 :: 0 :: longBuffer)
    have hl : (((0 : Byte) :: 0 :: longBuffer).length : Int) = 131079 := by
      rw [List.length_cons, List.length_cons, longBuffer_length]; rfl
    have hs : wordSum .little (0 :: 0 :: longBuffer) = 4295032831 := by
      rw [wordSum, wordSum_longBuffer]; rfl
    rw [hl, hs] at h
    exact h
  · have h := calcChecksum_length .little (0xFF :: 0xFF :: longBuffer)
    have hl : (((0xFF : Byte) :: 0xFF :: longBuffer).length : Int) = 131079 := by
      rw [List.length_cons, List.length_cons, longBuffer_length]; rfl
    have hs : wordSum .little (0xFF :: 0xFF :: longBuffer) = 4295098366 := by
      rw [wordSum, wordSum_longBuffer]; rfl
    rw [hl, hs] at h
    exact h

/-- C2 (amended): for a buffer `B` of at most 131078 bytes and a 2-byte field
at an even offset `k` inside it, on a host of either byte order: if `c` is
`__CalcChecksum` of `B` with the field zeroed, then `__CalcChecksum` of `B`
with the field holding `c`, stored as the host stores a `uint16_t`, is 0. -/
theorem checksum_field_verifies (e : Endian) (B : List Byte) (k : Nat) (hk : k % 2 = 0)
    (hkm : k + 2 ≤ B.length) (hm : B.length ≤ 131078) :
    ∃ c, __CalcChecksum e (setField B k [0, 0]) B.length = some c ∧
      __CalcChecksum e (setField B k (wr16 e c)) B.length = some 0 :=
  field_verifies e B k hk hkm hm

/-- Witness of `checksum_field_verifies`: the known vector, field at offset 10. -/
theorem checksum_field_verifies_witness :
    10 % 2 = 0 ∧ 10 + 2 ≤ rfcHeader.length ∧ rfcHeader.length ≤ 131078 ∧
      ∃ c, __CalcChecksum .little (setField rfcHeader 10 [0, 0]) rfcHeader.length = some c ∧
        __CalcChecksum .little (setField rfcHeader 10 (wr16 .little c)) rfcHeader.length
          = some 0 :=
  ⟨by decide, by decide, by decide,
    checksum_field_verifies .little rfcHeader 10 (by decide) (by decide) (by decide)⟩

/-- C3, as stated, fails on a little-endian host for the buffer of 131077
bytes `FF FF ... FF FF 01`: its words sum to `0x10000FFFF`, the two folding
statements leave `0x20000` and `__CalcChecksum` returns `0xFFFF`, while folding
until the high half is zero gives 1, whose complement is `0xFFFE`. -/
theorem rfc1071_counterexample :
    __CalcChecksum .little longBuffer 131077 = some 0xFFFF ∧
      rfc1071Checksum .little longBuffer = 0xFFFE := by
  constructor
  · have h := calcChecksum_length .little longBuffer
    have hl : (longBuffer.length : Int) = 131077 := by rw [longBuffer_length]; rfl
    rw [hl, wordSum_longBuffer] at h
    exact h
  · rw [rfc1071Checksum, wordSum_longBuffer]
    simp [foldCarries]

/-- C3 (amended): for every buffer of at most 131076 bytes, on a host of either
byte order, `__CalcChecksum` returns the complement, truncated to 16 bits, of
the sum of the 16-bit words of the buffer (as the host reads them) folded until
the high half is zero: up to that length two folding steps reach the fully
folded value. -/
theorem calcChecksum_eq_rfc1071 (e : Endian) (B : List Byte) (hm : B.length ≤ 131076) :
    __CalcChecksum e B B.length = some (rfc1071Checksum e B) := by
  have hb := wordSum_le e B
  have hs : wordSum e B ≤ 4295032830 := by omega
  rw [calcChecksum_length, foldAnswer_eq _ (by omega), fold2_eq_foldCarries _ hs,
    rfc1071Checksum]

/-- Witness of `calcChecksum_eq_rfc1071`: the known vector. -/
theorem calcChecksum_eq_rfc1071_witness :
    rfcHeader.length ≤ 131076 ∧
      __CalcChecksum .big rfcHeader rfcHeader.length = some (rfc1071Checksum .big rfcHeader) :=
  ⟨by decide, calcChecksum_eq_rfc1071 .big rfcHeader (by decide)⟩

/-- C4, as stated, fails on a little-endian host: on the known vector
`__CalcChecksum` returns `0xE6B1`, not `0xB1E6`. -/
theorem known_vector_little :
    __CalcChecksum .little rfcHeader 20 = some 0xE6B1 ∧
      __CalcChecksum .little rfcHeader 20 ≠ some 0xB1E6 := by
  constructor <;> decide

/-- C4 (amended): on the known vector (`nbytes = 20`) `__CalcChecksum` returns
`0xB1E6` on a big-endian host and `0xE6B1` on a little-endian host; on either
host the two bytes of the result, as the host stores a `uint16_t`, are
`B1 E6`. -/
theorem known_vector_bytes (e : Endian) :
    __CalcChecksum e rfcHeader 20
        = some (match e with
          | .big => 0xB1E6
          | .little => 0xE6B1) ∧
      (__CalcChecksum e rfcHeader 20).map (wr16 e) = some [0xB1, 0xE6] := by
  cases e <;> constructor <;> decide

/-- C5, at a payload of 1480 bytes on a big-endian host: the copy of the
payload leaves the 300-byte `outBuffer`; no frame with the fixed IPv4 fields is
built. -/
theorem fixed_fields_payload_1480 :
    SendPacket .big (osOk 0 1514) "eth0" hwExample ⟨10, 0, 0, 1⟩ (List.replicate 1480 0x00) 1480
      = ([.socket, .ioctl 3 "eth0", .bind 3], .undefined) :=
  SendPacket_overflow .big (osOk 0 1514) "eth0" hwExample ⟨10, 0, 0, 1⟩ _ 1480
    (by decide) (by decide)

/-- C6, at a payload of 1000 bytes: the copy of the payload runs 734 bytes
past the 300-byte `outBuffer`; `SendPacket` has no defined result and no frame,
so no Ethernet header, is handed to `send`. -/
theorem ethernet_header_payload_1000 :
    sentFrames (SendPacket .little (osOk 1 1034) "eth0" hwExample ⟨10, 0, 0, 1⟩
        (List.replicate 1000 0x02) 1000).1 = [] ∧
      (SendPacket .little (osOk 1 1034) "eth0" hwExample ⟨10, 0, 0, 1⟩
        (List.replicate 1000 0x02) 1000).2 = .undefined := by
  rw [SendPacket_overflow .little (osOk 1 1034) "eth0" hwExample ⟨10, 0, 0, 1⟩ _ 1000
    (by decide) (by decide)]
  exact ⟨createSocket_sentFrames _ _, rfl⟩

/-- C7, at a payload of 1024 bytes: only the first 266 payload bytes fit the
300-byte `outBuffer` behind the two headers; the copy of all 1024 leaves the
array, `SendPacket` has no defined result and the payload is not handed to
`send`. -/
theorem payload_passthrough_payload_1024 :
    fillOutBuffer .little (osOk 2 1058) hwExample (inet_addr .little ⟨10, 0, 0, 1⟩)
        (List.replicate 1024 0x01) 1024 = none ∧
      (SendPacket .little (osOk 2 1058) "eth0" hwExample ⟨10, 0, 0, 1⟩
        (List.replicate 1024 0x01) 1024).2 = .undefined ∧
      sentFrames (SendPacket .little (osOk 2 1058) "eth0" hwExample ⟨10, 0, 0, 1⟩
        (List.replicate 1024 0x01) 1024).1 = [] := by
  refine ⟨fillOutBuffer_overflow _ _ _ _ _ 1024 (by decide), ?_⟩
  rw [SendPacket_overflow .little (osOk 2 1058) "eth0" hwExample ⟨10, 0, 0, 1⟩ _ 1024
    (by decide) (by decide)]
  exact ⟨rfl, createSocket_sentFrames _ _⟩

/-- C8, at a payload of 1000 bytes: `send` is not called at all, where the
claim has one call with length 1034. -/
theorem send_once_payload_1000 :
    sentFrames (SendPacket .little (osOk 3 1034) "eth0" hwExample ⟨10, 0, 0, 1⟩
        (List.replicate 1000 0x02) 1000).1 = [] := by
  rw [SendPacket_overflow .little (osOk 3 1034) "eth0" hwExample ⟨10, 0, 0, 1⟩ _ 1000
    (by decide) (by decide)]
  exact createSocket_sentFrames _ _

/-- C9, at a payload of 1024 bytes: no frame is emitted whose bytes 16..17
could hold `04 14`, the total length 1044; the call ends undefined. -/
theorem total_length_payload_1024 :
    (SendPacket .big (osOk 4 1058) "eth0" hwExample ⟨10, 0, 0, 1⟩
        (List.replicate 1024 0x01) 1024).2 = .undefined ∧
      sentFrames (SendPacket .big (osOk 4 1058) "eth0" hwExample ⟨10, 0, 0, 1⟩
        (List.replicate 1024 0x01) 1024).1 = [] := by
  rw [SendPacket_overflow .big (osOk 4 1058) "eth0" hwExample ⟨10, 0, 0, 1⟩ _ 1024
    (by decide) (by decide)]
  exact ⟨rfl, createSocket_sentFrames _ _⟩

/-- C10, as stated, fails on a short write: for the payload `AA BB` the frame
has 36 bytes; when `send` reports 10 bytes written `SendPacket` returns 1. -/
theorem short_write_returns_1 :
    (SendPacket .little (osOk 0 10) "eth0" hwExample ⟨10, 0, 0, 1⟩ [0xAA, 0xBB] 2).2
      = .returned 1 := by
  have h := SendPacket_outcome .little (osOk 0 10) "eth0" hwExample ⟨10, 0, 0, 1⟩ [0xAA, 0xBB] 2
    (by decide) (by decide) (by decide) (by decide)
  exact h.trans rfl

/-- C10 (amended): for a payload of `n ≤ 266` bytes, on a socket that was
created and bound, `SendPacket` returns 0 when `send` returns -1 and returns 1
for every other result of `send`, a short write included.  (When `send` returns
-1 the text handed to `perror` is the literal advanced by `errno`, which has to
stay inside the literal: `errno ≤ 27`.) -/
theorem SendPacket_return (e : Endian) (os : OS) (name : String) (hw : List Byte)
    (src : DottedQuad) (buf : List Byte) (n : Nat) (hsock : (__CreateSocket os name).2 ≠ 0)
    (hhw : 6 ≤ hw.length) (hn : n ≤ 266) (hbuf : n ≤ buf.length)
    (herrno : os.send = -1 → os.errno ≤ 27) :
    (SendPacket e os name hw src buf n).2
      = if os.send = -1 then .returned 0 else .returned 1 := by
  rw [SendPacket_outcome e os name hw src buf n hsock hhw hn hbuf]
  by_cases hs : os.send = -1
  · rw [if_pos hs, if_pos hs, if_pos (herrno hs)]
  · rw [if_neg hs, if_neg hs]

/-- Witness of `SendPacket_return`: the payload `AA BB` and a failed `send`. -/
theorem SendPacket_return_witness :
    (__CreateSocket (osOk 0 (-1)) "eth0").2 ≠ 0 ∧ 6 ≤ hwExample.length ∧ 2 ≤ 266 ∧
      2 ≤ [(0xAA : Byte), 0xBB].length ∧ ((osOk 0 (-1)).send = -1 → (osOk 0 (-1)).errno ≤ 27) ∧
      (SendPacket .big (osOk 0 (-1)) "eth0" hwExample ⟨10, 0, 0, 1⟩ [0xAA, 0xBB] (2 : Nat)).2
        = if (osOk 0 (-1)).send = -1 then .returned 0 else .returned 1 :=
  ⟨by decide, by decide, by decide, by decide, by decide,
    SendPacket_return .big (osOk 0 (-1)) "eth0" hwExample ⟨10, 0, 0, 1⟩ [0xAA, 0xBB] 2
      (by decide) (by decide) (by decide) (by decide) (by decide)⟩


/-! ## Totality and the trailing byte -/

theorem sumLoop_nonpos (e : Endian) (ptr : List Byte) (nbytes : Int) (s : Nat)
    (h : nbytes ≤ 1) : sumLoop e ptr nbytes s = some (ptr, nbytes, s) := by
  unfold sumLoop
  rw [if_neg (by omega)]

theorem sumLoop_addOddByte_take (e : Endian) (B : List Byte) :
    ∀ (n s : Nat), n ≤ B.length →
      (sumLoop e B n s).bind (fun r => addOddByte e r.1 r.2.1 r.2.2)
        = some (s + wordSum e (B.take n)) := by
  induction B using wordSum.induct e with
  | case1 b0 b1 rest ih =>
    intro n s hn
    match n, hn with
    | 0, _ => simp [sumLoop_nonpos, addOddByte, wordSum]
    | 1, _ => simp [sumLoop_nonpos, addOddByte, wordSum]
    | k + 2, hk =>
      have h1 : ((k + 2 : Nat) : Int) > 1 := by omega
      have h2 : ((k + 2 : Nat) : Int) - 2 = (k : Int) := by omega
      have h3 : k ≤ rest.length := by simp only [List.length_cons] at hk; omega
      rw [sumLoop, if_pos h1, h2, ih k _ h3, List.take_succ_cons, List.take_succ_cons, wordSum,
        Nat.add_assoc]
  | case2 b =>
    intro n s hn
    match n, hn with
    | 0, _ => simp [sumLoop_nonpos, addOddByte, wordSum]
    | 1, _ => simp [sumLoop_nonpos, addOddByte, wordSum]
    | k + 2, hk => simp at hk
  | case3 =>
    intro n s hn
    have : n = 0 := by simpa using hn
    subst this
    simp [sumLoop_nonpos, addOddByte, wordSum]

/-- On the first `n` bytes of a buffer that holds at least `n` bytes
`__CalcChecksum` returns the folded, complemented word sum of those bytes. -/
theorem calcChecksum_take (e : Endian) (B : List Byte) (n : Nat) (hn : n ≤ B.length) :
    __CalcChecksum e B n = some (foldAnswer (wordSum e (B.take n))) := by
  have h := sumLoop_addOddByte_take e B n 0 hn
  unfold __CalcChecksum
  cases hs : sumLoop e B n 0 with
  | none => rw [hs] at h; simp at h
  | some r =>
    obtain ⟨p, m, s⟩ := r
    rw [hs] at h
    simp only [Option.bind] at h
    simp only [h, Nat.zero_add]

/-- With `nbytes ≤ 0` neither the loop nor the odd-byte statement runs. -/
theorem calcChecksum_nonpos (e : Endian) (B : List Byte) (nbytes : Int) (h : nbytes ≤ 0) :
    __CalcChecksum e B nbytes = some 0xFFFF := by
  have h1 : ¬ nbytes = 1 := by omega
  simp only [__CalcChecksum, sumLoop_nonpos e B nbytes 0 (by omega), addOddByte, if_neg h1]
  rfl

theorem wordSum_append_zero (e : Endian) (B : List Byte) (h : B.length % 2 = 1) :
    wordSum e (B ++ [0]) = wordSum e B := by
  induction B using wordSum.induct e with
  | case1 b0 b1 tl ih =>
    have h2 : tl.length % 2 = 1 := by simp only [List.length_cons] at h; omega
    rw [List.cons_append, List.cons_append, wordSum, wordSum, ih h2]
  | case2 b => rfl
  | case3 => simp at h

/-! ## Byte order -/

/-- Two folding steps leave a value congruent to the sum modulo 65535, and a
non-zero one when the sum is not zero. -/
theorem fold2_mod (s : Nat) (h : s ≤ 4295032830) :
    ∃ p, s = fold2 s + 65535 * p ∧ (0 < s → 0 < fold2 s) := by
  obtain ⟨hi, lo, hlo, rfl⟩ : ∃ hi lo, lo < 65536 ∧ s = 65536 * hi + lo :=
    ⟨s / 65536, s % 65536, Nat.mod_lt _ (by decide), by omega⟩
  rw [fold2_split hi lo hlo]
  by_cases h1 : hi = 65536
  · refine ⟨65537, ?_, ?_⟩ <;> omega
  · by_cases h3 : hi + lo < 65536
    · refine ⟨hi, ?_, ?_⟩ <;> omega
    · refine ⟨hi + 1, ?_, ?_⟩ <;> omega

theorem wordSum_swab (B : List Byte) :
    ∃ A A2, 256 * wordSum .big B = wordSum .little B + 65535 * A ∧
      256 * wordSum .little B = wordSum .big B + 65535 * A2 := by
  induction B using wordSum.induct Endian.big with
  | case1 b0 b1 rest ih =>
    obtain ⟨A, A2, h1, h2⟩ := ih
    refine ⟨A + b0.val, A2 + b1.val, ?_, ?_⟩ <;> simp only [wordSum, rd16] <;> omega
  | case2 b =>
    refine ⟨b.val, 0, ?_, ?_⟩ <;> simp only [wordSum, rd16] <;> omega
  | case3 => exact ⟨0, 0, rfl, rfl⟩

theorem swab_unique (x y p q A A2 sb sl : Nat) (hx : x < 65536) (hy : y < 65536)
    (h1 : sb = x + 65535 * p) (h2 : sl = y + 65535 * q) (h3 : 256 * sb = sl + 65535 * A)
    (h4 : 256 * sl = sb + 65535 * A2) (h5 : 0 < sb → 0 < x) (h6 : 0 < sl → 0 < y) :
    y = 256 * (x % 256) + x / 256 := by
  obtain ⟨u, v, hv, rfl⟩ : ∃ u v, v < 256 ∧ x = 256 * u + v :=
    ⟨x / 256, x % 256, Nat.mod_lt _ (by decide), by omega⟩
  have e1 : (256 * u + v) % 256 = v := by omega
  have e2 : (256 * u + v) / 256 = u := by omega
  rw [e1, e2]
  omega

theorem fold2_swab (B : List Byte) (hm : B.length ≤ 131076) :
    fold2 (wordSum .little B)
      = 256 * (fold2 (wordSum .big B) % 256) + fold2 (wordSum .big B) / 256 := by
  have hb := wordSum_le .big B
  have hl := wordSum_le .little B
  obtain ⟨p, h1, h5⟩ := fold2_mod (wordSum .big B) (by omega)
  obtain ⟨q, h2, h6⟩ := fold2_mod (wordSum .little B) (by omega)
  obtain ⟨A, A2, h3, h4⟩ := wordSum_swab B
  exact swab_unique _ _ p q A A2 _ _ (fold2_lt _) (fold2_lt _) h1 h2 h3 h4 h5 h6

theorem wr16_swab (x y : Nat) (hx : x < 65536) (hy : y = 256 * (x % 256) + x / 256) :
    wr16 .little (65535 - y) = wr16 .big (65535 - x) := by
  obtain ⟨u, v, hv, rfl⟩ : ∃ u v, v < 256 ∧ x = 256 * u + v :=
    ⟨x / 256, x % 256, Nat.mod_lt _ (by decide), by omega⟩
  have e1 : (256 * u + v) % 256 = v := by omega
  have e2 : (256 * u + v) / 256 = u := by omega
  rw [e1, e2] at hy
  subst hy
  have hu : u < 256 := by omega
  have a1 : 65535 - (256 * u + v) = (255 - u) * 256 + (255 - v) := by omega
  have a2 : 65535 - (256 * v + u) = (255 - v) * 256 + (255 - u) := by omega
  have s1 := swab_bytes (255 - u) (255 - v) (by omega) (by omega)
  have s2 := swab_bytes (255 - v) (255 - u) (by omega) (by omega)
  simp only [wr16, byte, List.cons.injEq, Fin.mk.injEq, and_true, a1, a2, s1.1, s1.2, s2.1, s2.2]

/-- The bytes of the result of `__CalcChecksum`, as the host stores them, are
those of the big-endian computation. -/
theorem wr16_foldAnswer (e : Endian) (B : List Byte) (hm : B.length ≤ 131076) :
    wr16 e (foldAnswer (wordSum e B)) = wr16 .big (65535 - fold2 (wordSum .big B)) := by
  have hb := wordSum_le .big B
  have hl := wordSum_le .little B
  cases e
  · rw [foldAnswer_eq _ (by omega)]
    exact wr16_swab _ _ (fold2_lt _) (fold2_swab B hm)
  · rw [foldAnswer_eq _ (by omega)]

theorem swapWords_length (B : List Byte) : (swapWords B).length = B.length := by
  induction B using swapWords.induct with
  | case1 b0 b1 rest ih => simp only [swapWords, List.length_cons, ih]
  | case2 b => rfl
  | case3 => rfl

theorem wordSum_swapWords (B : List Byte) (h : B.length % 2 = 0) :
    wordSum .little (swapWords B) = wordSum .big B ∧
      wordSum .big (swapWords B) = wordSum .little B := by
  induction B using swapWords.induct with
  | case1 b0 b1 rest ih =>
    have h2 : rest.length % 2 = 0 := by simp only [List.length_cons] at h; omega
    obtain ⟨i1, i2⟩ := ih h2
    simp only [swapWords, wordSum, rd16, i1, i2]
    constructor <;> omega
  | case2 b => simp at h
  | case3 => exact ⟨rfl, rfl⟩

theorem wr16_reverse (v : Nat) : wr16 .little v = (wr16 .big v).reverse ∧
    wr16 .big v = (wr16 .little v).reverse := ⟨rfl, rfl⟩

/-! ## The paths of `SendPacket` -/

theorem memcpy_some (dst : List Byte) (off : Int) (src : List Byte) (n : Int) (r : List Byte)
    (h : memcpy dst off src n = some r) :
    0 ≤ off ∧ 0 ≤ n ∧ off + n ≤ dst.length ∧ n ≤ src.length := by
  unfold memcpy at h
  split at h
  · assumption
  · simp at h

/-- The output buffer is filled only for a hardware address of at least 6
bytes and a payload size between 0 and 266 that the payload buffer holds. -/
theorem fillOutBuffer_some (e : Endian) (os : OS) (hw : List Byte) (sourceIP : Nat)
    (buf : List Byte) (n : Int) (r : List Byte × Int)
    (h : fillOutBuffer e os hw sourceIP buf n = some r) :
    6 ≤ hw.length ∧ 0 ≤ n ∧ n ≤ 266 ∧ n ≤ buf.length := by
  unfold fillOutBuffer at h
  simp only [Option.bind_eq_bind] at h
  cases h0 : memcpy ethernetInit 6 hw 6 with
  | none => rw [h0, Option.none_bind] at h; cases h
  | some eb =>
    have c0 := memcpy_some _ _ _ _ _ h0
    rw [h0] at h
    simp only [Option.some_bind] at h
    cases hc : __CalcChecksum e (iphdr.bytes e (ipHeaderInit e os sourceIP n)) 20 with
    | none => rw [hc, Option.none_bind] at h; cases h
    | some c =>
      rw [hc] at h
      simp only [Option.some_bind] at h
      cases h1 : memcpy (List.replicate 300 0) 0 eb 14 with
      | none => rw [h1, Option.none_bind] at h; cases h
      | some ob1 =>
        have hl1 := memcpy_length _ _ _ _ _ h1
        rw [h1] at h
        simp only [Option.some_bind] at h
        cases h2 : memcpy ob1 14 (iphdr.bytes e
            { ipHeaderInit e os sourceIP n with check := c }) 20 with
        | none => rw [h2, Option.none_bind] at h; cases h
        | some ob2 =>
          have hl2 := memcpy_length _ _ _ _ _ h2
          rw [h2] at h
          simp only [Option.some_bind] at h
          cases h3 : memcpy ob2 (14 + 20) buf n with
          | none => rw [h3, Option.none_bind] at h; cases h
          | some ob3 =>
            have c3 := memcpy_some _ _ _ _ _ h3
            rw [hl2, hl1, List.length_replicate] at c3
            omega

/-- When `__CreateSocket` returns 0, `SendPacket` reports it and calls
`exit(EXIT_FAILURE)`. -/
theorem SendPacket_exit (e : Endian) (os : OS) (name : String) (hw : List Byte)
    (src : DottedQuad) (buf : List Byte) (n : Int) (h : (__CreateSocket os name).2 = 0) :
    SendPacket e os name hw src buf n
      = ((__CreateSocket os name).1 ++ [.diag .fdNotFound], .exited 1) := by
  simp only [SendPacket, if_pos h]

theorem createSocket_ioctl_fails (os : OS) (name : String) (hs : os.socket ≠ 0)
    (hi : os.ioctl = -1) :
    __CreateSocket os name
      = ([.socket, .ioctl os.socket name, .diag (.ioctlFailed name)], 0) := by
  simp only [__CreateSocket, if_neg hs, if_pos hi]

/-- Every frame `SendPacket` hands to `send` is the Ethernet header, the IPv4
header of the on-wire layout and the payload, whatever the input. -/
theorem sentFrames_shape (e : Endian) (os : OS) (name : String) (hw : List Byte)
    (src : DottedQuad) (buf : List Byte) (n : Int) (frame : List Byte) (len : Int)
    (h : (frame, len) ∈ sentFrames (SendPacket e os name hw src buf n).1) :
    (__CreateSocket os name).2 ≠ 0 ∧ 6 ≤ hw.length ∧ 0 ≤ n ∧ n ≤ 266 ∧ n ≤ buf.length ∧
      len = 34 + n ∧
      ∃ c0 c1, frame = ethernetBytes hw
        ++ ipv4Bytes (20 + n.toNat) (os.random % 65535) c0 c1 src ++ buf.take n.toNat := by
  by_cases hsock : (__CreateSocket os name).2 = 0
  · rw [SendPacket_exit e os name hw src buf n hsock, sentFrames_append,
      createSocket_sentFrames] at h
    simp [sentFrames] at h
  · cases hf : fillOutBuffer e os hw (inet_addr e src) buf n with
    | none =>
      have hsp : SendPacket e os name hw src buf n = ((__CreateSocket os name).1, .undefined) := by
        simp only [SendPacket, if_neg hsock, hf]
      rw [hsp, createSocket_sentFrames] at h
      simp at h
    | some r =>
      obtain ⟨h1, h2, h3, h4⟩ := fillOutBuffer_some e os hw _ buf n r hf
      obtain ⟨k, rfl⟩ : ∃ k : Nat, n = k := ⟨n.toNat, by omega⟩
      obtain ⟨c, c0, c1, _, _, _, hsent⟩ := SendPacket_frame e os name hw src buf k hsock h1
        (by omega) (by omega)
      rw [hsent] at h
      simp only [List.mem_singleton, Prod.mk.injEq] at h
      refine ⟨hsock, h1, h2, h3, h4, h.2, c0, c1, ?_⟩
      rw [h.1, Int.toNat_ofNat]

/-! ## The claims on failures, totality and byte order -/

set_option maxRecDepth 4000 in
theorem sentFrames_example :
    sentFrames (SendPacket .little (osOk 0x1234 36) "eth0" hwExample ⟨10, 0, 0, 1⟩
      [0xAA, 0xBB] 2).1 = [(frameExample, 36)] := by
  decide

/-- C11, as stated, fails: when the interface-index lookup fails `SendPacket`
does not return 0, it calls `exit(EXIT_FAILURE)`. -/
theorem interface_missing_exits :
    (SendPacket .little osNoInterface "does-not-exist" hwExample ⟨10, 0, 0, 1⟩ [] 0).2
        = .exited 1 ∧
      (SendPacket .little osNoInterface "does-not-exist" hwExample ⟨10, 0, 0, 1⟩ [] 0).2
        ≠ .returned 0 := by
  rw [SendPacket_exit .little osNoInterface "does-not-exist" hwExample ⟨10, 0, 0, 1⟩ [] 0
    (by decide)]
  exact ⟨rfl, by decide⟩

/-- C11 (amended): when the socket is created and the interface-index lookup
fails, `__CreateSocket` reports it and returns 0, and `SendPacket` then calls
`exit(EXIT_FAILURE)`: it does not return to its caller and never calls `send`,
for every hardware address, source address and payload. -/
theorem SendPacket_interface_missing (e : Endian) (os : OS) (name : String) (hw : List Byte)
    (src : DottedQuad) (buf : List Byte) (n : Int) (hs : os.socket ≠ 0) (hi : os.ioctl = -1) :
    SendPacket e os name hw src buf n
        = ([.socket, .ioctl os.socket name, .diag (.ioctlFailed name), .diag .fdNotFound],
            .exited 1) ∧
      sentFrames (SendPacket e os name hw src buf n).1 = [] := by
  have hc := createSocket_ioctl_fails os name hs hi
  have h0 : (__CreateSocket os name).2 = 0 := by rw [hc]
  have hsp := SendPacket_exit e os name hw src buf n h0
  rw [hc] at hsp
  rw [hsp]
  exact ⟨rfl, rfl⟩

/-- Witness of `SendPacket_interface_missing`: the interface `does-not-exist`. -/
theorem SendPacket_interface_missing_witness :
    osNoInterface.socket ≠ 0 ∧ osNoInterface.ioctl = -1 ∧
      (SendPacket .big osNoInterface "does-not-exist" hwExample ⟨10, 0, 0, 1⟩ [] 0
          = ([.socket, .ioctl osNoInterface.socket "does-not-exist",
              .diag (.ioctlFailed "does-not-exist"), .diag .fdNotFound], .exited 1) ∧
        sentFrames (SendPacket .big osNoInterface "does-not-exist" hwExample ⟨10, 0, 0, 1⟩
          [] 0).1 = []) :=
  ⟨by decide, by decide,
    SendPacket_interface_missing .big osNoInterface "does-not-exist" hwExample ⟨10, 0, 0, 1⟩
      [] 0 (by decide) (by decide)⟩

/-- C12, as stated, fails: a payload of 1481 bytes is not answered with 0. -/
theorem payload_1481_not_rejected :
    (SendPacket .little (osOk 0 1515) "lo" hwExample ⟨127, 0, 0, 1⟩
        (List.replicate 1481 0x00) 1481).2 = .undefined ∧
      (SendPacket .little (osOk 0 1515) "lo" hwExample ⟨127, 0, 0, 1⟩
        (List.replicate 1481 0x00) 1481).2 ≠ .returned 0 := by
  rw [SendPacket_overflow .little (osOk 0 1515) "lo" hwExample ⟨127, 0, 0, 1⟩ _ 1481
    (by decide) (by decide)]
  exact ⟨rfl, by decide⟩

/-- C12 (amended): `SendPacket` makes no test on the payload length, so no
payload is rejected: whenever it returns 0, `send` has been called with a frame
and has returned -1. -/
theorem SendPacket_returns_0_after_send (e : Endian) (os : OS) (name : String)
    (hw : List Byte) (src : DottedQuad) (buf : List Byte) (n : Int)
    (h : (SendPacket e os name hw src buf n).2 = .returned 0) :
    os.send = -1 ∧ ∃ frame, sentFrames (SendPacket e os name hw src buf n).1 = [(frame, 34 + n)] := by
  by_cases hsock : (__CreateSocket os name).2 = 0
  · rw [SendPacket_exit e os name hw src buf n hsock] at h
    cases h
  · cases hf : fillOutBuffer e os hw (inet_addr e src) buf n with
    | none =>
      have hsp : SendPacket e os name hw src buf n = ((__CreateSocket os name).1, .undefined) := by
        simp only [SendPacket, if_neg hsock, hf]
      rw [hsp] at h
      cases h
    | some r =>
      obtain ⟨h1, h2, h3, h4⟩ := fillOutBuffer_some e os hw _ buf n r hf
      obtain ⟨k, rfl⟩ : ∃ k : Nat, n = k := ⟨n.toNat, by omega⟩
      obtain ⟨c, c0, c1, _, _, _, hsent⟩ := SendPacket_frame e os name hw src buf k hsock h1
        (by omega) (by omega)
      rw [SendPacket_outcome e os name hw src buf k hsock h1 (by omega) (by omega)] at h
      refine ⟨?_, _, hsent⟩
      by_contra hne
      rw [if_neg hne] at h
      cases h

/-- Witness of `SendPacket_returns_0_after_send`: a failed `send` of the frame
for the payload `AA BB`. -/
theorem SendPacket_returns_0_after_send_witness :
    (SendPacket .little (osOk 0x1234 (-1)) "eth0" hwExample ⟨10, 0, 0, 1⟩ [0xAA, 0xBB] 2).2
        = .returned 0 ∧
      ((osOk 0x1234 (-1)).send = -1 ∧
        ∃ frame, sentFrames (SendPacket .little (osOk 0x1234 (-1)) "eth0" hwExample
          ⟨10, 0, 0, 1⟩ [0xAA, 0xBB] 2).1 = [(frame, 34 + 2)]) :=
  have h : (SendPacket .little (osOk 0x1234 (-1)) "eth0" hwExample ⟨10, 0, 0, 1⟩
      [0xAA, 0xBB] 2).2 = .returned 0 :=
    (SendPacket_outcome .little (osOk 0x1234 (-1)) "eth0" hwExample ⟨10, 0, 0, 1⟩
      [0xAA, 0xBB] 2 (by decide) (by decide) (by decide) (by decide)).trans rfl
  ⟨h, SendPacket_returns_0_after_send .little (osOk 0x1234 (-1)) "eth0" hwExample
    ⟨10, 0, 0, 1⟩ [0xAA, 0xBB] 2 h⟩

/-- C13: `__CalcChecksum` is total and has no error result.  The embedding is
a structurally recursive function, so it terminates; on every buffer that holds
at least `nbytes` bytes (`nbytes` may be zero or negative) it returns a 16-bit
value, and with `nbytes = 0` it returns `0xFFFF`. -/
theorem calcChecksum_total (e : Endian) (B : List Byte) (nbytes : Int)
    (h : nbytes ≤ B.length) :
    (∃ v, __CalcChecksum e B nbytes = some v ∧ v ≤ 0xFFFF) ∧
      __CalcChecksum e B 0 = some 0xFFFF := by
  refine ⟨?_, calcChecksum_nonpos e B 0 (le_refl _)⟩
  by_cases h0 : nbytes ≤ 0
  · exact ⟨0xFFFF, calcChecksum_nonpos e B nbytes h0, le_refl _⟩
  · obtain ⟨k, rfl⟩ : ∃ k : Nat, nbytes = k := ⟨nbytes.toNat, by omega⟩
    have hk : k ≤ B.length := by omega
    refine ⟨_, calcChecksum_take e B k hk, ?_⟩
    have := foldAnswer_lt (wordSum e (B.take k))
    omega

/-- Witness of `calcChecksum_total`: the known vector with `nbytes = 20`. -/
theorem calcChecksum_total_witness :
    (20 : Int) ≤ rfcHeader.length ∧
      ((∃ v, __CalcChecksum .little rfcHeader 20 = some v ∧ v ≤ 0xFFFF) ∧
        __CalcChecksum .little rfcHeader 0 = some 0xFFFF) :=
  ⟨by decide, calcChecksum_total .little rfcHeader 20 (by decide)⟩

/-- C14: for a buffer `B` of odd length `m` the trailing byte is summed as the
word it forms with a zero byte after it, the trailing byte at the lower address
(first on the wire): `__CalcChecksum (B, m)` equals `__CalcChecksum` of `B`
followed by one `00` byte with `m + 1`. -/
theorem calcChecksum_odd_trailing (e : Endian) (B : List Byte) (h : B.length % 2 = 1) :
    __CalcChecksum e B B.length = __CalcChecksum e (B ++ [0x00]) (B.length + 1) := by
  have h1 := calcChecksum_length e (B ++ [0x00])
  have h2 : (((B ++ [0x00]).length : Nat) : Int) = (B.length : Int) + 1 := by
    rw [List.length_append, List.length_singleton]; rfl
  rw [h2, wordSum_append_zero e B h] at h1
  rw [h1, calcChecksum_length]

/-- Witness of `calcChecksum_odd_trailing`: the buffer `12 34 56`. -/
theorem calcChecksum_odd_trailing_witness :
    [(0x12 : Byte), 0x34, 0x56].length % 2 = 1 ∧
      __CalcChecksum .little [0x12, 0x34, 0x56] [(0x12 : Byte), 0x34, 0x56].length
        = __CalcChecksum .little ([0x12, 0x34, 0x56] ++ [0x00])
            ([(0x12 : Byte), 0x34, 0x56].length + 1) :=
  ⟨by decide, calcChecksum_odd_trailing .little [0x12, 0x34, 0x56] (by decide)⟩

/-- C15: the checksum is byte-order invariant.  For every buffer `B` of a
length for which the fold is exact (at most 131076 bytes, so every `m ≤ 1500`),
the two bytes of the result of `__CalcChecksum`, as the host stores them
without byte swapping, are the two bytes, high byte first, of the RFC 1071
checksum of `B` read as big-endian 16-bit words; and for `B` of even length,
swapping the two bytes of every word swaps the two bytes of the result. -/
theorem checksum_byte_order (e : Endian) (B : List Byte) (hm : B.length ≤ 131076) :
    (__CalcChecksum e B B.length).map (wr16 e) = some (wr16 .big (rfc1071Checksum .big B)) ∧
      (B.length % 2 = 0 →
        (__CalcChecksum e (swapWords B) B.length).map (wr16 e)
          = (__CalcChecksum e B B.length).map (fun v => (wr16 e v).reverse)) := by
  have hb := wordSum_le .big B
  have hr : rfc1071Checksum .big B = 65535 - fold2 (wordSum .big B) := by
    rw [rfc1071Checksum, fold2_eq_foldCarries _ (by omega)]
  constructor
  · rw [calcChecksum_length, Option.map_some', wr16_foldAnswer e B hm, hr]
  · intro heven
    have hs := calcChecksum_length e (swapWords B)
    rw [swapWords_length] at hs
    rw [hs, calcChecksum_length, Option.map_some', Option.map_some']
    obtain ⟨w1, w2⟩ := wordSum_swapWords B heven
    have hl := wr16_foldAnswer .little B hm
    have hg := wr16_foldAnswer .big B hm
    cases e
    · rw [w1, hl, (wr16_reverse (foldAnswer (wordSum .big B))).1, hg]
    · rw [w2, hg, (wr16_reverse (foldAnswer (wordSum .little B))).2, hl]

/-- Witness of `checksum_byte_order`: the known vector on a little-endian
host. -/
theorem checksum_byte_order_witness :
    rfcHeader.length ≤ 131076 ∧
      ((__CalcChecksum .little rfcHeader rfcHeader.length).map (wr16 .little)
          = some (wr16 .big (rfc1071Checksum .big rfcHeader)) ∧
        (rfcHeader.length % 2 = 0 →
          (__CalcChecksum .little (swapWords rfcHeader) rfcHeader.length).map (wr16 .little)
            = (__CalcChecksum .little rfcHeader rfcHeader.length).map
                (fun v => (wr16 .little v).reverse))) :=
  ⟨by decide, checksum_byte_order .little rfcHeader (by decide)⟩

/-- C16, as stated, fails for a payload of 267 bytes: the third copy ends at
index 300, outside the 300-byte `outBuffer`; nothing caps the frame, no frame
of 300 bytes is handed to `send`, and the call has no defined result. -/
theorem outBuffer_not_capped :
    fillOutBuffer .little (osOk 5 300) hwExample (inet_addr .little ⟨10, 0, 0, 1⟩)
        (List.replicate 267 0x01) 267 = none ∧
      sentFrames (SendPacket .little (osOk 5 300) "eth0" hwExample ⟨10, 0, 0, 1⟩
        (List.replicate 267 0x01) 267).1 = [] ∧
      (SendPacket .little (osOk 5 300) "eth0" hwExample ⟨10, 0, 0, 1⟩
        (List.replicate 267 0x01) 267).2 = .undefined := by
  refine ⟨fillOutBuffer_overflow _ _ _ _ _ 267 (by decide), ?_⟩
  rw [SendPacket_overflow .little (osOk 5 300) "eth0" hwExample ⟨10, 0, 0, 1⟩ _ 267
    (by decide) (by decide)]
  exact ⟨createSocket_sentFrames _ _, rfl⟩

/-- C16 (amended): for every payload length `n` with `0 ≤ n ≤ 266` every byte
`SendPacket` writes to or reads from the 300-byte `outBuffer` lies at an index
below 300 (`34 + n ≤ 300`): the three copies and the reads stay inside the
array, and the frame handed to `send` is its first `34 + n` bytes. -/
theorem outBuffer_in_bounds (e : Endian) (os : OS) (name : String) (hw : List Byte)
    (src : DottedQuad) (buf : List Byte) (n : Nat) (hsock : (__CreateSocket os name).2 ≠ 0)
    (hhw : 6 ≤ hw.length) (hn : n ≤ 266) (hbuf : n ≤ buf.length) :
    ∃ outBuffer,
      fillOutBuffer e os hw (inet_addr e src) buf n = some (outBuffer, 34 + (n : Int)) ∧
      outBuffer.length = 300 ∧ 34 + n ≤ 300 ∧
      sentFrames (SendPacket e os name hw src buf n).1
        = [(outBuffer.take (34 + n), 34 + (n : Int))] := by
  obtain ⟨c, c0, c1, _, _, _, h4⟩ := fillOutBuffer_eq e os hw src buf n hhw hn hbuf
  refine ⟨_, h4, ?_, by omega, ?_⟩
  · have h5 : (ipv4Bytes (20 + n) (os.random % 65535) c0 c1 src).length = 20 := rfl
    rw [List.length_append, List.length_append, List.length_append,
      ethernetBytes_length hw hhw, h5, List.length_take, List.length_replicate]
    omega
  · rw [(SendPacket_calls e os name hw src buf n _ _ hsock h4).1]
    have h6 : (34 + (n : Int)).toNat = 34 + n := by omega
    rw [h6]

/-- Witness of `outBuffer_in_bounds`: a payload of 266 bytes. -/
theorem outBuffer_in_bounds_witness :
    (__CreateSocket (osOk 0 300) "eth0").2 ≠ 0 ∧ 6 ≤ hwExample.length ∧ 266 ≤ 266 ∧
      266 ≤ (List.replicate 266 (0x01 : Byte)).length ∧
      ∃ outBuffer,
        fillOutBuffer .little (osOk 0 300) hwExample (inet_addr .little ⟨10, 0, 0, 1⟩)
          (List.replicate 266 0x01) (266 : Nat) = some (outBuffer, 34 + ((266 : Nat) : Int)) ∧
        outBuffer.length = 300 ∧ 34 + 266 ≤ 300 ∧
        sentFrames (SendPacket .little (osOk 0 300) "eth0" hwExample ⟨10, 0, 0, 1⟩
          (List.replicate 266 0x01) (266 : Nat)).1
          = [(outBuffer.take (34 + 266), 34 + ((266 : Nat) : Int))] :=
  ⟨by decide, by decide, by decide, by rw [List.length_replicate],
    outBuffer_in_bounds .little (osOk 0 300) "eth0" hwExample ⟨10, 0, 0, 1⟩
      (List.replicate 266 0x01) 266 (by decide) (by decide) (by decide)
      (by rw [List.length_replicate])⟩

/-- C17, on the code: when `socket` returns -1 `__CreateSocket` does not take
the socket-creation branch, it calls `ioctl` on descriptor -1 and reports an
`ioctl` failure; when `socket` succeeds with descriptor 0 it reports a
socket-creation error and returns 0. -/
theorem createSocket_refused :
    __CreateSocket osRefused "eth0"
        = ([.socket, .ioctl (-1) "eth0", .diag (.ioctlFailed "eth0")], 0) ∧
      __CreateSocket osDescriptor0 "eth0"
        = ([.socket, .diag (.socketCreation "eth0")], 0) :=
  ⟨rfl, rfl⟩

/-- C18: in every frame `SendPacket` hands to `send`, bytes 18..19 are the
big-endian encoding of `r mod 65535` for the value `r` that `random` returned;
that value lies in `0..65534`, so the bytes are never `FF FF`. -/
theorem identification_bytes (e : Endian) (os : OS) (name : String) (hw : List Byte)
    (src : DottedQuad) (buf : List Byte) (n : Int) (frame : List Byte) (len : Int)
    (h : (frame, len) ∈ sentFrames (SendPacket e os name hw src buf n).1) :
    (frame.drop 18).take 2 = [byte (os.random % 65535 / 256), byte (os.random % 65535)] ∧
      os.random % 65535 ≤ 65534 ∧ (frame.drop 18).take 2 ≠ [0xFF, 0xFF] := by
  obtain ⟨_, hhw, _, _, _, _, c0, c1, hf⟩ := sentFrames_shape e os name hw src buf n frame len h
  have h18 : 18 = (ethernetBytes hw).length + 4 := by rw [ethernetBytes_length hw hhw]
  have hb : (frame.drop 18).take 2
      = [byte (os.random % 65535 / 256), byte (os.random % 65535)] := by
    rw [hf, List.append_assoc, h18, List.drop_append]
    rfl
  have hlt : os.random % 65535 ≤ 65534 := by omega
  refine ⟨hb, hlt, ?_⟩
  rw [hb]
  intro hff
  simp only [byte, List.cons.injEq, Fin.ext_iff, and_true] at hff
  have h1 : os.random % 65535 / 256 % 256 = 255 := hff.1
  have h2 : os.random % 65535 % 256 = 255 := hff.2
  omega

/-- Witness of `identification_bytes`: the frame of the layout round-trip. -/
theorem identification_bytes_witness :
    (frameExample, (36 : Int)) ∈ sentFrames (SendPacket .little (osOk 0x1234 36) "eth0"
        hwExample ⟨10, 0, 0, 1⟩ [0xAA, 0xBB] 2).1 ∧
      ((frameExample.drop 18).take 2
          = [byte ((osOk 0x1234 36).random % 65535 / 256), byte ((osOk 0x1234 36).random % 65535)] ∧
        (osOk 0x1234 36).random % 65535 ≤ 65534 ∧ (frameExample.drop 18).take 2 ≠ [0xFF, 0xFF]) :=
  have h : (frameExample, (36 : Int)) ∈ sentFrames (SendPacket .little (osOk 0x1234 36) "eth0"
      hwExample ⟨10, 0, 0, 1⟩ [0xAA, 0xBB] 2).1 := by
    rw [sentFrames_example]
    exact List.mem_singleton.2 rfl
  ⟨h, identification_bytes .little (osOk 0x1234 36) "eth0" hwExample ⟨10, 0, 0, 1⟩
    [0xAA, 0xBB] 2 frameExample 36 h⟩

end Ospf
